import Mathlib

/-!
Shallow embedding of `pkg/tsdb/grafana-pyroscope-datasource/pyroscopeClient.go`.

The Go client issues one remote call per operation and maps the wire
response into a normalized domain model.  Here the remote call is
abstracted as an `Except GoErr <response>` argument (the `(resp, err)`
pair produced by the connect client), and each operation is the pure
mapping the Go function performs on it.  Go's two-valued return
`(result, error)` is modelled as `Option <result> × Option GoErr`;
a Go runtime panic (out-of-range slice index) is modelled as the
outer `none` of an `Option` result: the function never returns a pair
at all in that case.
-/

namespace Pyroscope

/-- Go `error` value, identified by its message string. -/
structure GoErr where
  msg : String
deriving DecidableEq, Repr

/-! ## Wire types (`querierv1` protobuf messages), as consumed by the client -/

/-- Upstream profile-type record: `{ID, Name, SampleType}` fields read at
lines 79-80 of the source. -/
structure UpstreamProfileType where
  id : String
  name : String
  sampleType : String
deriving DecidableEq, Repr

/-- Upstream `ProfileTypesResponse.Msg`; the `ProfileTypes` slice may be nil
(line 72), modelled as `Option`. -/
structure ProfileTypesResponse where
  profileTypes : Option (List UpstreamProfileType)
deriving DecidableEq, Repr

/-- Upstream label pair `{Name, Value}` (lines 106-110). -/
structure UpstreamLabelPair where
  name : String
  value : String
deriving DecidableEq, Repr

/-- Upstream point `{Value float64, Timestamp int64}` (lines 113-118). -/
structure UpstreamPoint where
  value : Float
  timestamp : Int
deriving Repr

/-- Upstream per-series record `{Labels, Points}` (lines 104-124). -/
structure UpstreamSeries where
  labels : List UpstreamLabelPair
  points : List UpstreamPoint
deriving Repr

/-- Upstream `SelectSeriesResponse.Msg` (line 102). -/
structure SelectSeriesResponse where
  series : List UpstreamSeries
deriving Repr

/-- Upstream flamegraph level `{Values []int64}` (line 160). -/
structure UpstreamLevel where
  values : List Int
deriving DecidableEq, Repr

/-- Upstream `FlameGraph` message `{Names, Levels, Total, MaxSelf}`
(lines 166-169). -/
structure FlameGraph where
  names : List String
  levels : List UpstreamLevel
  total : Int
  maxSelf : Int
deriving DecidableEq, Repr

/-- Upstream `SelectMergeStacktracesResponse.Msg`; `Flamegraph` is a nilable
pointer (line 152), modelled as `Option`. -/
structure SelectMergeStacktracesResponse where
  flamegraph : Option FlameGraph
deriving DecidableEq, Repr

/-- Upstream `LabelNamesResponse.Msg` (line 194). -/
structure LabelNamesResponse where
  names : List String
deriving DecidableEq, Repr

/-- Upstream `LabelValuesResponse.Msg` (line 208). -/
structure LabelValuesResponse where
  names : List String
deriving DecidableEq, Repr

/-! ## Domain model (source lines 14-55) -/

/-- Domain `ProfileType` (lines 14-17). -/
structure ProfileType where
  id : String
  label : String
deriving DecidableEq, Repr

/-- Domain `Level` (lines 26-28). -/
structure Level where
  values : List Int
deriving DecidableEq, Repr

/-- Domain `Flamebearer` (lines 19-24). -/
structure Flamebearer where
  names : List String
  levels : List Level
  total : Int
  maxSelf : Int
deriving DecidableEq, Repr

/-- Domain `LabelPair` (lines 35-38). -/
structure LabelPair where
  name : String
  value : String
deriving DecidableEq, Repr

/-- Domain `Point` (lines 40-44); `Timestamp` is a milliseconds unix
timestamp. -/
structure Point where
  value : Float
  timestamp : Int
deriving Repr

/-- Domain `Series` (lines 30-33). -/
structure Series where
  labels : List LabelPair
  points : List Point
deriving Repr

/-- Domain `ProfileResponse` (lines 46-49); `Flamebearer` is a pointer in Go,
hence `Option`. -/
structure ProfileResponse where
  flamebearer : Option Flamebearer
  units : String
deriving Repr

/-- Domain `SeriesResponse` (lines 51-55). -/
structure SeriesResponse where
  series : List Series
  units : String
  label : String
deriving Repr

/-! ## Helper functions of the source -/

/-- Splitting a character list at every occurrence of a separator character:
the empty input yields one empty field, and each separator occurrence starts
a new field.  This is the semantics of Go `strings.Split` for a
one-character separator, written as structural recursion so that it
evaluates inside the kernel. -/
def splitChars (sep : Char) : List Char → List (List Char)
  | [] => [[]]
  | c :: rest =>
    if c = sep then [] :: splitChars sep rest
    else
      match splitChars sep rest with
      | [] => [[c]]
      | h :: t => (c :: h) :: t

/-- Go `strings.Split(s, ":")` (used at lines 127 and 176 of the source). -/
def goSplit (s : String) : List String :=
  (splitChars ':' s.toList).map fun cs => ⟨cs⟩

/-- Source `getUnits` (lines 175-185).  `parts[2]` on a slice with fewer
than three elements panics in Go; that panic is the `none` case here. -/
def getUnits (profileTypeID : String) : Option String :=
  match (goSplit profileTypeID)[2]? with
  | none => none
  | some unit =>
    if unit = "nanoseconds" then some "ns"
    else if unit = "count" then some "short"
    else some unit

/-- Spec-side unit normalizer, written from §4.6 of the specification for
comparison with the source's `getUnits`: a pure total function on the unit
token, `"nanoseconds" → "ns"`, `"count" → "short"`, any other token
unchanged. -/
def NormalizeUnit (token : String) : String :=
  if token = "nanoseconds" then "ns"
  else if token = "count" then "short"
  else token

/-- Source `isPrivateLabel` (lines 211-213): `strings.HasPrefix(label, "__")`.
Byte-level HasPrefix with the ASCII needle "__" coincides with the
character-level check, since an ASCII byte in UTF-8 only ever encodes that
ASCII character. -/
def isPrivateLabel (label : String) : Bool :=
  "__".toList.isPrefixOf label.toList

/-! ## The five operations -/

/-- Source `ProfileTypes` (lines 67-85): on upstream error return
`(nil, err)`; on a nil upstream slice return an empty (non-nil) list; else
map each record to `{ID, Label: Name + " - " + SampleType}`. -/
def ProfileTypes (upstream : Except GoErr ProfileTypesResponse) :
    Option (List ProfileType) × Option GoErr :=
  match upstream with
  | Except.error e => (none, some e)
  | Except.ok res =>
    match res.profileTypes with
    | none => (some [], none)
    | some ts =>
      (some (ts.map fun t => { id := t.id, label := t.name ++ " - " ++ t.sampleType }), none)

/-- Per-element mapping inside `GetSeries`'s inner loops (lines 106-118). -/
def mapLabelPair (l : UpstreamLabelPair) : LabelPair :=
  { name := l.name, value := l.value }

/-- Per-point mapping inside `GetSeries` (lines 113-118). -/
def mapPoint (p : UpstreamPoint) : Point :=
  { value := p.value, timestamp := p.timestamp }

/-- Per-series mapping of `GetSeries`'s outer loop (lines 104-125). -/
def mapSeries (s : UpstreamSeries) : Series :=
  { labels := s.labels.map mapLabelPair, points := s.points.map mapPoint }

/-- Source `GetSeries` (lines 87-134).  On upstream error it returns
`(nil, err)`.  On success it maps the series, then builds the response with
`Units: getUnits(profileTypeID)` and `Label: parts[1]`; both index the
colon-split identifier, so on an identifier with fewer than three (resp.
two) components Go panics — modelled by the outer `none`. -/
def GetSeries (profileTypeID : String)
    (upstream : Except GoErr SelectSeriesResponse) :
    Option (Option SeriesResponse × Option GoErr) :=
  match upstream with
  | Except.error e => some (none, some e)
  | Except.ok resp =>
    match getUnits profileTypeID, (goSplit profileTypeID)[1]? with
    | some units, some label =>
      some (some { series := resp.series.map mapSeries,
                   units := units, label := label }, none)
    | _, _ => none

/-- Per-level mapping of `GetProfile` (lines 157-162). -/
def mapLevel (l : UpstreamLevel) : Level :=
  { values := l.values }

/-- Source `GetProfile` (lines 136-173).  Upstream error propagates as
`(nil, err)`; a nil `Flamegraph` is the deliberate `(nil, nil)` no-data
outcome (lines 152-155); otherwise levels are mapped one-to-one and Names,
Total, MaxSelf copied, with `Units: getUnits(profileTypeID)` (panic on a
malformed identifier, modelled as the outer `none`). -/
def GetProfile (profileTypeID : String)
    (upstream : Except GoErr SelectMergeStacktracesResponse) :
    Option (Option ProfileResponse × Option GoErr) :=
  match upstream with
  | Except.error e => some (none, some e)
  | Except.ok resp =>
    match resp.flamegraph with
    | none => some (none, none)
    | some fg =>
      match getUnits profileTypeID with
      | none => none
      | some units =>
        some (some { flamebearer := some { names := fg.names,
                                           levels := fg.levels.map mapLevel,
                                           total := fg.total, maxSelf := fg.maxSelf },
                     units := units }, none)

/-- Source `LabelNames` (lines 187-201): wraps an upstream error with the
operation description (the typo "seding" is the source's); on success keeps
only the labels that are not private, in order. -/
def LabelNames (upstream : Except GoErr LabelNamesResponse) :
    Option (List String) × Option GoErr :=
  match upstream with
  | Except.error e =>
    (none, some { msg := "error seding LabelNames request " ++ e.msg })
  | Except.ok resp =>
    (some (resp.names.filter fun label => !isPrivateLabel label), none)

/-- Source `LabelValues` (lines 203-209): errors propagate unchanged; on
success the upstream `Names` list is returned verbatim, whatever the
requested label is. -/
def LabelValues (label : String)
    (upstream : Except GoErr LabelValuesResponse) :
    Option (List String) × Option GoErr :=
  match upstream with
  | Except.error e => (none, some e)
  | Except.ok resp => (some resp.names, none)

/-! ## Helper lemma -/

/-- A list is pointwise related to its own image under `f` whenever `R a (f a)`
holds for every element: the extensional reading of a `make`+index-loop copy. -/
theorem forall2_map_self {α β : Type} (f : α → β) (R : α → β → Prop)
    (h : ∀ a, R a (f a)) (l : List α) : List.Forall₂ R l (l.map f) := by
  induction l with
  | nil => exact List.Forall₂.nil
  | cons a t ih => exact List.Forall₂.cons (h a) ih

/-- A label is private exactly when its first two characters are both the
underscore. -/
theorem isPrivateLabel_iff (s : String) :
    isPrivateLabel s = true ↔ s.toList.take 2 = ['_', '_'] := by
  have h2 : "__".toList = ['_', '_'] := rfl
  unfold isPrivateLabel
  rw [List.isPrefixOf_iff_prefix, List.prefix_iff_eq_take, h2]
  exact eq_comm

/-- The source's `getUnits` is the normalization of the third component of
the colon-split identifier, when that component exists. -/
theorem getUnits_eq_map (id : String) :
    getUnits id = ((goSplit id)[2]?).map NormalizeUnit := by
  unfold getUnits NormalizeUnit
  cases h : (goSplit id)[2]? with
  | none => simp [h]
  | some unit =>
    simp only [h, Option.map_some']
    split_ifs <;> rfl

/-- On an identifier with at least three colon-delimited components,
`getUnits` succeeds and returns the normalized third component. -/
theorem getUnits_eq_normalize (id : String) (h : 2 < (goSplit id).length) :
    getUnits id = some (NormalizeUnit ((goSplit id).get ⟨2, h⟩)) := by
  rw [getUnits_eq_map, List.getElem?_eq_getElem h, Option.map_some',
    List.get_eq_getElem]

/-! ## Claims -/

/-- C4: the unit normalization of the source (`getUnits` on the identifier's
unit token) agrees with the spec's pure total `NormalizeUnit`:
`"nanoseconds" ↦ "ns"`, `"count" ↦ "short"`, every other token unchanged,
and the token mapping is idempotent. -/
theorem normalizeUnit_spec :
    (∀ id, getUnits id = ((goSplit id)[2]?).map NormalizeUnit) ∧
    NormalizeUnit "nanoseconds" = "ns" ∧
    NormalizeUnit "count" = "short" ∧
    NormalizeUnit "bytes" = "bytes" ∧
    (∀ u, u ≠ "nanoseconds" → u ≠ "count" → NormalizeUnit u = u) ∧
    (∀ u, NormalizeUnit (NormalizeUnit u) = NormalizeUnit u) := by
  refine ⟨?_, rfl, rfl, rfl, ?_, ?_⟩
  · intro id
    unfold getUnits NormalizeUnit
    cases h : (goSplit id)[2]? with
    | none => simp [h]
    | some unit =>
      simp only [h, Option.map_some']
      split_ifs <;> rfl
  · intro u h1 h2
    simp [NormalizeUnit, h1, h2]
  · intro u
    unfold NormalizeUnit
    split_ifs with h1 h2 <;> simp_all

/-- Witness for C4 at the concrete token "bytes" (passthrough) and
idempotence at "count". -/
theorem normalizeUnit_spec_witness :
    NormalizeUnit "bytes" = "bytes" ∧
    NormalizeUnit (NormalizeUnit "count") = NormalizeUnit "count" :=
  ⟨normalizeUnit_spec.2.2.2.2.1 "bytes" (by decide) (by decide),
   normalizeUnit_spec.2.2.2.2.2 "count"⟩

/-- C1 (divergence): on the malformed identifier "onlyonepart" — one
colon-delimited component — the source `GetSeries` does not return an
InvalidIdentifier error pair: it performs `parts[2]`/`parts[1]` on a
one-element slice and panics (the `none` outcome of the model), so no
`(result, error)` pair is produced at all. -/
theorem getSeries_malformed_panics :
    (goSplit "onlyonepart").length = 1 ∧
    getUnits "onlyonepart" = none ∧
    GetSeries "onlyonepart" (Except.ok { series := [] }) = none := by
  refine ⟨by decide, by decide, ?_⟩
  rfl

/-- C2: when the merged-stacktrace upstream response carries no flamegraph,
`GetProfile` returns the no-data outcome `(nil, nil)` — absent result and
absent error — while a transport error is returned as `(nil, err)`; the two
outcomes are distinct. -/
theorem getProfile_noData (id : String) (e : GoErr) :
    GetProfile id (Except.ok { flamegraph := none }) = some (none, none) ∧
    GetProfile id (Except.error e) = some (none, some e) ∧
    GetProfile id (Except.ok { flamegraph := none }) ≠
      GetProfile id (Except.error e) := by
  refine ⟨rfl, rfl, ?_⟩
  simp [GetProfile]

/-- C6: `LabelNames` on a successful upstream call returns exactly the names
without the double-underscore reserved marker, as an order-preserving
sublist, with no error; in particular the upstream list
["__name__", "job", "instance", "__meta_x"] yields ["job", "instance"]. -/
theorem labelNames_spec (names : List String) :
    (∃ l, LabelNames (Except.ok { names := names }) = (some l, none) ∧
      l.Sublist names ∧
      (∀ n, n ∈ l ↔ n ∈ names ∧ ¬ n.toList.take 2 = ['_', '_'])) ∧
    LabelNames (Except.ok { names := ["__name__", "job", "instance", "__meta_x"] }) =
      (some ["job", "instance"], none) := by
  constructor
  · refine ⟨names.filter fun label => !isPrivateLabel label, rfl,
      List.filter_sublist names, ?_⟩
    intro n
    simp only [List.mem_filter, Bool.not_eq_true, ← isPrivateLabel_iff,
      Bool.not_eq_true']
  · rfl

/-- C7: `LabelValues` returns the upstream value list verbatim for every
label name, including the reserved "__name__": no private-label filtering
is applied to value listing. -/
theorem labelValues_spec (label : String) (names : List String) (e : GoErr) :
    LabelValues label (Except.ok { names := names }) = (some names, none) ∧
    LabelValues "__name__" (Except.ok { names := names }) = (some names, none) ∧
    isPrivateLabel "__name__" = true ∧
    LabelValues label (Except.error e) = (none, some e) :=
  ⟨rfl, rfl, rfl, rfl⟩

/-- C3: on a profileTypeID with at least three colon-delimited components
and a successful upstream call, `GetSeries` returns a `SeriesResponse`
whose series correspond one-to-one and in order, field-for-field, to the
upstream per-series label and point lists, whose `Label` is the
identifier's second component and whose `Units` is the normalized third
component. -/
theorem getSeries_wellformed (id : String) (resp : SelectSeriesResponse)
    (h : 2 < (goSplit id).length) :
    ∃ r : SeriesResponse,
      GetSeries id (Except.ok resp) = some (some r, none) ∧
      List.Forall₂ (fun (us : UpstreamSeries) (rs : Series) =>
          List.Forall₂ (fun (ul : UpstreamLabelPair) (rl : LabelPair) =>
              rl.name = ul.name ∧ rl.value = ul.value) us.labels rs.labels ∧
          List.Forall₂ (fun (up : UpstreamPoint) (rp : Point) =>
              rp.value = up.value ∧ rp.timestamp = up.timestamp)
            us.points rs.points)
        resp.series r.series ∧
      r.label = (goSplit id).get ⟨1, by omega⟩ ∧
      r.units = NormalizeUnit ((goSplit id).get ⟨2, h⟩) := by
  have hl1 : 1 < (goSplit id).length := by omega
  refine ⟨{ series := resp.series.map mapSeries,
            units := NormalizeUnit ((goSplit id).get ⟨2, h⟩),
            label := (goSplit id).get ⟨1, hl1⟩ }, ?_, ?_, rfl, rfl⟩
  · simp only [GetSeries]
    rw [getUnits_eq_normalize id h, List.getElem?_eq_getElem hl1]
    simp [List.get_eq_getElem]
  · exact forall2_map_self mapSeries _
      (fun s => ⟨forall2_map_self mapLabelPair _ (fun l => ⟨rfl, rfl⟩) s.labels,
                 forall2_map_self mapPoint _ (fun p => ⟨rfl, rfl⟩) s.points⟩)
      resp.series

/-- Witness for C3: "process_cpu:cpu:nanoseconds" yields Label "cpu" and
Units "ns"; "memory:inuse_space:bytes" yields Label "inuse_space" and Units
"bytes". -/
theorem getSeries_wellformed_witness :
    (∃ r : SeriesResponse,
      GetSeries "process_cpu:cpu:nanoseconds" (Except.ok { series := [] }) =
        some (some r, none) ∧ r.label = "cpu" ∧ r.units = "ns") ∧
    (∃ r : SeriesResponse,
      GetSeries "memory:inuse_space:bytes" (Except.ok { series := [] }) =
        some (some r, none) ∧ r.label = "inuse_space" ∧ r.units = "bytes") := by
  constructor
  · obtain ⟨r, hr, hm, hl, hu⟩ :=
      getSeries_wellformed "process_cpu:cpu:nanoseconds" { series := [] } (by decide)
    exact ⟨r, hr, by rw [hl]; rfl, by rw [hu]; rfl⟩
  · obtain ⟨r, hr, hm, hl, hu⟩ :=
      getSeries_wellformed "memory:inuse_space:bytes" { series := [] } (by decide)
    exact ⟨r, hr, by rw [hl]; rfl, by rw [hu]; rfl⟩

/-- C5: on every successful upstream call `ProfileTypes` returns a present
(never nil) list with no error — empty when the upstream slice is nil — and
each returned entry keeps the upstream ID and has Label equal to
Name + " - " + SampleType, one-to-one and in order. -/
theorem profileTypes_spec (pt : ProfileTypesResponse)
    (ts : List UpstreamProfileType) (e : GoErr) :
    (∃ l, ProfileTypes (Except.ok pt) = (some l, none)) ∧
    ProfileTypes (Except.ok { profileTypes := none }) = (some [], none) ∧
    (∃ l, ProfileTypes (Except.ok { profileTypes := some ts }) = (some l, none) ∧
      List.Forall₂ (fun (t : UpstreamProfileType) (p : ProfileType) =>
          p.id = t.id ∧ p.label = t.name ++ " - " ++ t.sampleType) ts l) ∧
    ProfileTypes (Except.error e) = (none, some e) := by
  refine ⟨?_, rfl, ?_, rfl⟩
  · simp only [ProfileTypes]
    cases hpt : pt.profileTypes with
    | none => exact ⟨[], rfl⟩
    | some ts2 => exact ⟨_, rfl⟩
  · exact ⟨_, rfl, forall2_map_self _ _ (fun t => ⟨rfl, rfl⟩) ts⟩

/-- C8: on a successful merged-stacktrace response that carries a
flamegraph, `GetProfile` maps the levels one-to-one preserving order with
each mapped Values sequence identical to the upstream one, and copies
Names, Total and MaxSelf verbatim (Units being the normalized third
identifier component). -/
theorem getProfile_mapping (id : String) (fg : FlameGraph)
    (h : 2 < (goSplit id).length) :
    ∃ fb : Flamebearer,
      GetProfile id (Except.ok { flamegraph := some fg }) =
        some (some { flamebearer := some fb,
                     units := NormalizeUnit ((goSplit id).get ⟨2, h⟩) }, none) ∧
      fb.names = fg.names ∧ fb.total = fg.total ∧ fb.maxSelf = fg.maxSelf ∧
      List.Forall₂ (fun (ul : UpstreamLevel) (rl : Level) => rl.values = ul.values)
        fg.levels fb.levels := by
  refine ⟨{ names := fg.names, levels := fg.levels.map mapLevel,
            total := fg.total, maxSelf := fg.maxSelf }, ?_, rfl, rfl, rfl, ?_⟩
  · simp only [GetProfile]
    rw [getUnits_eq_normalize id h]
  · exact forall2_map_self mapLevel
      (fun (ul : UpstreamLevel) (rl : Level) => rl.values = ul.values)
      (fun l => rfl) fg.levels

/-- Witness for C8 at a concrete identifier and flamegraph. -/
theorem getProfile_mapping_witness :
    ∃ fb : Flamebearer,
      GetProfile "process_cpu:cpu:nanoseconds"
          (Except.ok { flamegraph := some { names := ["total", "main"],
                                            levels := [{ values := [0, 100, 0, 0] }],
                                            total := 100, maxSelf := 50 } }) =
        some (some { flamebearer := some fb, units := "ns" }, none) ∧
      fb.names = ["total", "main"] ∧ fb.total = 100 ∧ fb.maxSelf = 50 ∧
      List.Forall₂ (fun (ul : UpstreamLevel) (rl : Level) => rl.values = ul.values)
        [{ values := [0, 100, 0, 0] }] fb.levels := by
  obtain ⟨fb, hr, hn, ht, hm, hf⟩ :=
    getProfile_mapping "process_cpu:cpu:nanoseconds"
      { names := ["total", "main"], levels := [{ values := [0, 100, 0, 0] }],
        total := 100, maxSelf := 50 } (by decide)
  exact ⟨fb, hr, hn, ht, hm, hf⟩

/-- C9: for every profileTypeID on which both succeed, the Units returned
by `GetSeries` equals the Units returned by `GetProfile`: both apply the
same `getUnits` normalization to the same identifier. -/
theorem units_consistent (id : String) (ss : SelectSeriesResponse)
    (fg : FlameGraph) (h : 2 < (goSplit id).length) :
    ∃ sr : SeriesResponse, ∃ pr : ProfileResponse,
      GetSeries id (Except.ok ss) = some (some sr, none) ∧
      GetProfile id (Except.ok { flamegraph := some fg }) = some (some pr, none) ∧
      sr.units = pr.units := by
  have hl1 : 1 < (goSplit id).length := by omega
  refine ⟨{ series := ss.series.map mapSeries,
            units := NormalizeUnit ((goSplit id).get ⟨2, h⟩),
            label := (goSplit id).get ⟨1, hl1⟩ },
          { flamebearer := some { names := fg.names,
                                  levels := fg.levels.map mapLevel,
                                  total := fg.total, maxSelf := fg.maxSelf },
            units := NormalizeUnit ((goSplit id).get ⟨2, h⟩) }, ?_, ?_, rfl⟩
  · simp only [GetSeries]
    rw [getUnits_eq_normalize id h, List.getElem?_eq_getElem hl1]
    simp [List.get_eq_getElem]
  · simp only [GetProfile]
    rw [getUnits_eq_normalize id h]

/-- Witness for C9 at a concrete identifier and concrete upstream
responses. -/
theorem units_consistent_witness :
    ∃ sr : SeriesResponse, ∃ pr : ProfileResponse,
      GetSeries "memory:alloc_space:count" (Except.ok { series := [] }) =
        some (some sr, none) ∧
      GetProfile "memory:alloc_space:count"
          (Except.ok { flamegraph := some { names := [], levels := [],
                                            total := 0, maxSelf := 0 } }) =
        some (some pr, none) ∧
      sr.units = pr.units :=
  units_consistent "memory:alloc_space:count" { series := [] }
    { names := [], levels := [], total := 0, maxSelf := 0 } (by decide)

/-- C10: no operation ever returns a populated result together with an
error: upstream failure yields `(nil, err)`, success yields a result with a
nil error, and `GetProfile`'s no-data case is the only outcome with both
result and error absent (`GetSeries` and `GetProfile` produce no pair at
all when they panic on a malformed identifier). -/
theorem no_partial_results (e : GoErr) (id lbl : String)
    (pt : ProfileTypesResponse) (ss : SelectSeriesResponse)
    (ms : SelectMergeStacktracesResponse) (ln : LabelNamesResponse)
    (lv : LabelValuesResponse) :
    ProfileTypes (Except.error e) = (none, some e) ∧
    (∃ l, ProfileTypes (Except.ok pt) = (some l, none)) ∧
    GetSeries id (Except.error e) = some (none, some e) ∧
    (GetSeries id (Except.ok ss) = none ∨
      ∃ r, GetSeries id (Except.ok ss) = some (some r, none)) ∧
    GetProfile id (Except.error e) = some (none, some e) ∧
    (GetProfile id (Except.ok ms) = none ∨
      GetProfile id (Except.ok ms) = some (none, none) ∨
      ∃ r, GetProfile id (Except.ok ms) = some (some r, none)) ∧
    (GetProfile id (Except.ok ms) = some (none, none) ↔ ms.flamegraph = none) ∧
    (∃ e2, LabelNames (Except.error e) = (none, some e2)) ∧
    (∃ l, LabelNames (Except.ok ln) = (some l, none)) ∧
    LabelValues lbl (Except.error e) = (none, some e) ∧
    LabelValues lbl (Except.ok lv) = (some lv.names, none) := by
  refine ⟨rfl, ?_, rfl, ?_, rfl, ?_, ?_, ⟨_, rfl⟩, ⟨_, rfl⟩, rfl, rfl⟩
  · simp only [ProfileTypes]
    cases hpt : pt.profileTypes with
    | none => exact ⟨[], rfl⟩
    | some ts => exact ⟨_, rfl⟩
  · simp only [GetSeries]
    cases hu : getUnits id with
    | none =>
      cases hl : (goSplit id)[1]? with
      | none => exact Or.inl rfl
      | some lab => exact Or.inl rfl
    | some u =>
      cases hl : (goSplit id)[1]? with
      | none => exact Or.inl rfl
      | some lab => exact Or.inr ⟨_, rfl⟩
  · simp only [GetProfile]
    cases hf : ms.flamegraph with
    | none => exact Or.inr (Or.inl rfl)
    | some fg =>
      cases hu : getUnits id with
      | none => exact Or.inl rfl
      | some u => exact Or.inr (Or.inr ⟨_, rfl⟩)
  · simp only [GetProfile]
    cases hf : ms.flamegraph with
    | none => simp
    | some fg =>
      cases hu : getUnits id with
      | none => simp
      | some u => simp

end Pyroscope
